import Mathlib

/-!
Verification of the Studio Lumi booking service (single-file FastAPI app, app.py).

Shallow embedding conventions:
* Python strings are modeled as lists of characters (ASCII suffices for all
  data the service manipulates; the add-on catalog names are Unicode and are
  carried opaquely).
* Python integers are Int, Python floor division and modulo are Int.fdiv and
  Int.fmod.
* The two float literals of the pricing code (the per-hall weekend
  coefficients and the 1.3 prime-time factor) are modeled as the exact decimal
  rationals they denote, and the built-in round (banker s rounding, i.e. round
  half to even) is modeled on rationals.  At every concrete price computed in
  this development the float computation and the rational computation agree.
* The sqlite bookings table is modeled as a list of rows in insertion order;
  the created_at wall-clock column is not modeled (no claim mentions it).
  A plain INSERT into a table whose primary key is already present raises
  sqlite3.IntegrityError, and the connection context manager rolls the
  transaction back; this is modeled by an explicit integrityError outcome
  that leaves the state unchanged.
* Exceptions raised by endpoint handlers are modeled by an error type:
  HTTPException(status, detail) raised deliberately by the code, and the
  unhandled ValueError / sqlite3.IntegrityError exceptions, which FastAPI
  turns into a 500 server error response.
-/

namespace StudioLumi

/-- Python text, modeled as a list of characters. -/
abbrev Str := List Char

/-! ### Python primitives: strip, split, replace, int(), string formatting -/

/-- The ASCII whitespace characters recognised by str.strip(). -/
def isPySpace (c : Char) : Bool :=
  c = ' ' || c = '\t' || c = '\n' || c = '\r' || c = '\x0b' || c = '\x0c'

/-- str.strip(): drop whitespace from both ends. -/
def pyStrip (s : Str) : Str :=
  ((s.dropWhile isPySpace).reverse.dropWhile isPySpace).reverse

/-- str.split(sep) for a single-character separator: split at every
occurrence, keeping empty parts; always returns at least one part. -/
def splitOnChar (sep : Char) : Str → List Str
  | [] => [[]]
  | c :: rest =>
    let r := splitOnChar sep rest
    if c = sep then [] :: r
    else
      match r with
      | [] => [[c]]
      | p :: ps => (c :: p) :: ps

/-- str.replace(old, new) where both arguments are single characters. -/
def replaceChar (old new : Char) (s : Str) : Str :=
  s.map (fun c => if c = old then new else c)

def isDigitChar (c : Char) : Bool := '0' ≤ c && c ≤ '9'

/-- Validity of the digit part of a Python integer literal after the sign:
one or more digits, with single underscores allowed between digit groups. -/
def digitsTail : Str → Bool
  | [] => true
  | ['_'] => false
  | '_' :: c :: rest => isDigitChar c && digitsTail rest
  | c :: rest => isDigitChar c && digitsTail rest

def digitsOk : Str → Bool
  | [] => false
  | c :: rest => isDigitChar c && digitsTail rest

/-- Numeric value of a list of decimal digits. -/
def digitsVal (l : Str) : Nat :=
  l.foldl (fun a c => 10 * a + (c.toNat - '0'.toNat)) 0

/-- int(text) on ASCII text: optional surrounding whitespace, optional sign,
then digits with optional single underscores between digit groups; none
models a raised ValueError. -/
def pyInt (s : Str) : Option Int :=
  match pyStrip s with
  | '+' :: rest =>
    if digitsOk rest then some (digitsVal (rest.filter (· ≠ '_')) : Nat) else none
  | '-' :: rest =>
    if digitsOk rest then some (-(digitsVal (rest.filter (· ≠ '_')) : Int)) else none
  | rest =>
    if digitsOk rest then some (digitsVal (rest.filter (· ≠ '_')) : Nat) else none

/-- Zero-left-padding to a given width. -/
def leftPad (c : Char) (width : Nat) (l : Str) : Str :=
  List.replicate (width - l.length) c ++ l

/-- Python format spec 0Nd applied to an integer: minimum width, zero
padding after the sign, the sign counting towards the width. -/
def formatZeroPad (width : Nat) (n : Int) : Str :=
  let ds := Nat.toDigits 10 n.natAbs
  if n < 0 then '-' :: leftPad '0' (width - 1) ds else leftPad '0' width ds

/-! ### Constants of the app (app.py lines 16-30) -/

def HALLS_SEED : List (Str × Str × Int × ℚ) :=
  [("A".data, "Daylight".data,  10000, 11/10),
   ("B".data, "Loft".data,      12000, 23/20),
   ("C".data, "Cyclorama".data, 15000, 6/5)]

def ADDONS_PRICE : List (Str × Int) :=
  [("Набор свет A".data, 3000),
   ("Фон белый".data,    1500),
   ("Стойки".data,       1000)]

def WORK_START : Nat := 9 * 60
def WORK_END : Nat := 21 * 60
def SLOT_DUR : Nat := 60
def BUFFER : Int := 15

/-! ### Time grid (app.py lines 77-105) -/

/-- time_to_min: h, m = map(int, hhmm.split(":")); return h*60+m.
Fails (ValueError) unless the text splits into exactly two parts both of
which parse as integers. -/
def time_to_min (hhmm : Str) : Option Int :=
  match (splitOnChar ':' hhmm).map pyInt with
  | [some h, some m] => some (h * 60 + m)
  | _ => none

/-- parse_slot: normalise em/en dashes to a hyphen, take the text before the
first hyphen, strip it, and parse it as a clock time. -/
def parse_slot (slot : Str) : Option Int :=
  let s := replaceChar '–' '-' (replaceChar '—' '-' slot)
  match splitOnChar '-' s with
  | [] => none
  | first :: _ => time_to_min (pyStrip first)

/-- min_to_range: format a start offset and duration as HH:MM–HH:MM with an
en dash (divmod is floor division and modulo). -/
def min_to_range (start_min : Int) (dur : Int) : Str :=
  let en := start_min + dur
  let h1 := start_min.fdiv 60
  let m1 := start_min.fmod 60
  let h2 := en.fdiv 60
  let m2 := en.fmod 60
  formatZeroPad 2 h1 ++ [':'] ++ formatZeroPad 2 m1 ++ ['–']
    ++ formatZeroPad 2 h2 ++ [':'] ++ formatZeroPad 2 m2

/-! ### Calendar date arithmetic (datetime.isoweekday, proleptic Gregorian) -/

def isLeapYear (y : Nat) : Bool :=
  y % 4 = 0 && (y % 100 ≠ 0 || y % 400 = 0)

def daysInMonth (y m : Nat) : Nat :=
  if m = 2 then (if isLeapYear y then 29 else 28)
  else if m = 4 || m = 6 || m = 9 || m = 11 then 30
  else 31

def daysBeforeMonth (y m : Nat) : Nat :=
  (List.range (m - 1)).foldl (fun a i => a + daysInMonth y (i + 1)) 0

/-- Number of days from 0001-01-01 (day 1) to the given date, as in
datetime.date.toordinal. -/
def toOrdinal (y m d : Nat) : Nat :=
  365 * (y - 1) + (y - 1) / 4 - (y - 1) / 100 + (y - 1) / 400
    + daysBeforeMonth y m + d

/-- ISO weekday: Monday = 1 .. Sunday = 7 (0001-01-01 was a Monday). -/
def isoWeekday (y m d : Nat) : Nat := (toOrdinal y m d - 1) % 7 + 1

/-- y, m, d = map(int, date_iso.split("-")) followed by the range validation
performed by the datetime constructor (MINYEAR 1 .. MAXYEAR 9999); none
models a raised ValueError. -/
def dateParse (date_iso : Str) : Option (Nat × Nat × Nat) :=
  match (splitOnChar '-' date_iso).map pyInt with
  | [some y, some m, some d] =>
    if 1 ≤ y ∧ y ≤ 9999 ∧ 1 ≤ m ∧ m ≤ 12 ∧ 1 ≤ d
        ∧ d ≤ (daysInMonth y.toNat m.toNat : Int) then
      some (y.toNat, m.toNat, d.toNat)
    else none
  | _ => none

/-- is_weekend: the date falls on ISO weekday 6 or 7; none models the
ValueError raised on an unparseable or out-of-range date. -/
def is_weekend (date_iso : Str) : Option Bool :=
  (dateParse date_iso).map (fun t => isoWeekday t.1 t.2.1 t.2.2 = 6 || isoWeekday t.1 t.2.1 t.2.2 = 7)

/-! ### Pricing engine (app.py lines 81-89) -/

/-- Built-in round on a rational: round half to even. -/
def pyRound (q : ℚ) : ℤ :=
  let f := ⌊q⌋
  let r := q - (f : ℚ)
  if r < 1/2 then f
  else if 1/2 < r then f + 1
  else if f % 2 = 0 then f else f + 1

/-- A seeded hall row: id, title, base_price, weekend_coef. -/
structure Hall where
  id : Str
  title : Str
  base_price : Int
  weekend_coef : ℚ
deriving DecidableEq, Repr

/-- The halls table, seeded once from HALLS_SEED and read-only afterwards. -/
def hallsTable : List Hall :=
  HALLS_SEED.map (fun r => ⟨r.1, r.2.1, r.2.2.1, r.2.2.2⟩)

/-- SELECT * FROM halls WHERE id=?. -/
def findHall (hall_id : Str) : Option Hall :=
  hallsTable.find? (fun h => decide (h.id = hall_id))

/-- calc_price: base price, weekend coefficient (rounded), then the 1.3
prime-time factor on the already weekend-adjusted price (rounded), then the
flat add-on prices; none models the ValueError that is_weekend raises on a
bad date. -/
def calc_price (hall : Hall) (date_iso : Str) (start_min : Int)
    (addons : List (Str × Int)) : Option Int :=
  match is_weekend date_iso with
  | none => none
  | some wk =>
    let price : Int := hall.base_price
    let price : Int := if wk then pyRound ((price : ℚ) * hall.weekend_coef) else price
    let price : Int :=
      if 17 ≤ start_min.fdiv 60 ∧ start_min.fdiv 60 < 21
      then pyRound ((price : ℚ) * (13/10 : ℚ)) else price
    some (addons.foldl (fun p a => p + a.2) price)

/-- dict.get(name, 0) on the add-on catalog. -/
def addonPrice (nm : Str) : Int :=
  match ADDONS_PRICE.find? (fun a => decide (a.1 = nm)) with
  | some a => a.2
  | none => 0

/-! ### Ledger state (the bookings table) -/

inductive Status where
  | confirmed
  | canceled
deriving DecidableEq, Repr

/-- A row of the bookings table (created_at, a wall-clock timestamp no claim
refers to, is not modeled; the addons JSON text is carried as the list of
name/price pairs it serialises). -/
structure Booking where
  booking_id : Str
  hall_id : Str
  date : Str
  start_min : Int
  end_min : Int
  name : Option Str
  phone : Str
  addons : List (Str × Int)
  price : Int
  status : Status
deriving DecidableEq, Repr

/-- The bookings table, as a list of rows in insertion order. -/
abbrev Ledger := List Booking

/-- Outcome of a request handler: a deliberate HTTPException, or one of the
two exception kinds the handlers can leak (FastAPI answers 500 for those). -/
inductive PyErr where
  | httpError (status : Nat) (detail : Str)
  | valueError
  | integrityError
deriving DecidableEq, Repr

/-- The JSON body of a /book request; absent keys are none, addons defaults
to the empty list. -/
structure Payload where
  hall_id : Option Str
  date : Option Str
  slot : Option Str
  name : Option Str
  phone : Option Str
  addons : List Str
deriving DecidableEq, Repr

/-- Python truthiness of an optional string: present and non-empty. -/
def truthy : Option Str → Bool
  | some s => !s.isEmpty
  | none => false

/-! ### Endpoint: /slots (app.py lines 148-166) -/

/-- The busy intervals: start/end minutes of the confirmed bookings of a
hall on a date, in table order. -/
def busyOf (st : Ledger) (hall_id date : Str) : List (Int × Int) :=
  (st.filter (fun b =>
      decide (b.hall_id = hall_id) && decide (b.date = date)
        && decide (b.status = .confirmed))).map
    (fun b => (b.start_min, b.end_min))

/-- The conflict test of the availability loop: a candidate slot starting at
start conflicts with busy interval (s, e) unless it ends (plus buffer)
before s or starts at or after e plus buffer. -/
def hasConflict (start : Nat) (busy : List (Int × Int)) : Bool :=
  let en : Int := (start : Int) + (SLOT_DUR : Int)
  busy.any (fun se =>
    !(decide (en + BUFFER ≤ se.1) || decide ((start : Int) ≥ se.2 + BUFFER)))

/-- The while loop of the /slots handler: candidate starts stepping by
SLOT_DUR while start + SLOT_DUR <= WORK_END, keeping the conflict-free
candidates as formatted ranges. -/
def slotsLoop (busy : List (Int × Int)) (start : Nat) : List Str :=
  if start + SLOT_DUR ≤ WORK_END then
    (if hasConflict start busy then [] else [min_to_range (start : Int) (SLOT_DUR : Int)])
      ++ slotsLoop busy (start + SLOT_DUR)
  else []
termination_by WORK_END - start
decreasing_by simp only [WORK_END, SLOT_DUR] at *; omega

/-- GET /slots. -/
def slotsEndpoint (st : Ledger) (hall_id date : Str) : Except PyErr (List Str) :=
  if hall_id.isEmpty || date.isEmpty then
    .error (.httpError 400 "hall_id and date required".data)
  else
    .ok (slotsLoop (busyOf st hall_id date) WORK_START)

/-! ### Endpoint: /book (app.py lines 168-212) -/

/-- The collision query of the /book handler: is there a confirmed booking
of this hall on this date whose interval conflicts, buffer included, with
the requested one. -/
def conflictExists (st : Ledger) (hall_id date : Str) (start_min end_min : Int) : Bool :=
  st.any (fun b =>
    decide (b.hall_id = hall_id) && decide (b.date = date)
      && decide (b.status = .confirmed)
      && !(decide (end_min + BUFFER ≤ b.start_min)
            || decide (start_min ≥ b.end_min + BUFFER)))

/-- The deterministic booking identifier
BK-(date)-(hall_id)-(start_min floordiv 60, zero padded to 2)00. -/
def genBookingId (date hall_id : Str) (start_min : Int) : Str :=
  "BK-".data ++ date ++ "-".data ++ hall_id ++ "-".data
    ++ formatZeroPad 2 (start_min.fdiv 60) ++ "00".data

/-- The response body of a successful /book call (the ics_url field only
repeats the booking id inside a constant template and is not modeled
separately). -/
structure BookResp where
  booking_id : Str
  price : Int
deriving DecidableEq, Repr

/-- POST /book: validate presence of the required fields, parse the slot
start (an unparseable slot leaks ValueError), reject on interval conflict
(409), reject an unknown hall (400), resolve the add-ons leniently, price
the booking (a bad date leaks ValueError), then insert; a duplicate primary
key makes the INSERT raise IntegrityError and the transaction roll back. -/
def book (st : Ledger) (p : Payload) : Except PyErr (BookResp × Ledger) :=
  if !(truthy p.hall_id && truthy p.date && truthy p.slot && truthy p.phone) then
    .error (.httpError 400 "hall_id, date, slot, phone required".data)
  else
    let hall_id := p.hall_id.getD []
    let date := p.date.getD []
    let slot := p.slot.getD []
    let phone := p.phone.getD []
    match parse_slot slot with
    | none => .error .valueError
    | some start_min =>
      let end_min := start_min + (SLOT_DUR : Int)
      if conflictExists st hall_id date start_min end_min then
        .error (.httpError 409 "Slot not available".data)
      else
        match findHall hall_id with
        | none => .error (.httpError 400 "Unknown hall".data)
        | some hall =>
          let addons_d := p.addons.map (fun n => (n, addonPrice n))
          match calc_price hall date start_min addons_d with
          | none => .error .valueError
          | some price =>
            let booking_id := genBookingId date hall_id start_min
            if st.any (fun b => decide (b.booking_id = booking_id)) then
              .error .integrityError
            else
              .ok (⟨booking_id, price⟩,
                st ++ [⟨booking_id, hall_id, date, start_min, end_min,
                        p.name, phone, addons_d, price, .confirmed⟩])

/-! ### Endpoint: /cancel (app.py lines 214-222) -/

/-- The row update of UPDATE bookings SET status = canceled WHERE
booking_id = ?. -/
def cancelRow (bid : Str) (b : Booking) : Booking :=
  if b.booking_id = bid then { b with status := .canceled } else b

/-- POST /cancel: 400 when booking_id is absent or empty, otherwise set the
status of every row with that id to canceled (a no-op when none matches)
and answer ok. -/
def cancel (st : Ledger) (booking_id : Option Str) : Except PyErr Ledger :=
  if !(truthy booking_id) then
    .error (.httpError 400 "booking_id required".data)
  else
    .ok (st.map (cancelRow (booking_id.getD [])))

/-! ### Endpoint: /bookings (app.py lines 224-234) -/

/-- Byte-order (memcmp) strict comparison of text, the BINARY collation
sqlite uses for ORDER BY on a TEXT column. -/
def strLt : Str → Str → Bool
  | [], [] => false
  | [], _ :: _ => true
  | _ :: _, [] => false
  | a :: as_, b :: bs => if a < b then true else if b < a then false else strLt as_ bs

/-- The ORDER BY date, start_min key as a non-strict comparison. -/
def rowLe (b1 b2 : Booking) : Bool :=
  strLt b1.date b2.date
    || (decide (b1.date = b2.date) && decide (b1.start_min ≤ b2.start_min))

/-- The SELECT of the /bookings handler: confirmed rows of the phone,
sorted by date then start_min. -/
def bookingsQuery (st : Ledger) (phone : Str) : List Booking :=
  (st.filter (fun b =>
      decide (b.phone = phone) && decide (b.status = .confirmed))).mergeSort rowLe

/-- GET /bookings: the projection returned to the client. -/
def bookingsEndpoint (st : Ledger) (phone : Str) :
    List (Str × Str × Str × Str × Int) :=
  (bookingsQuery st phone).map
    (fun b => (b.booking_id, b.hall_id, b.date, min_to_range b.start_min 60, b.price))

/-! ### Reachable ledger states -/

/-- The states the bookings table can reach through the write endpoints,
starting from the empty table: a successful /book call appends a row, a
successful /cancel call rewrites statuses; failed calls roll back and leave
the table unchanged. -/
inductive Reachable : Ledger → Prop where
  | init : Reachable []
  | bookStep (st : Ledger) (p : Payload) (r : BookResp) (st' : Ledger) :
      Reachable st → book st p = .ok (r, st') → Reachable st'
  | cancelStep (st : Ledger) (bid : Option Str) (st' : Ledger) :
      Reachable st → cancel st bid = .ok st' → Reachable st'

/-- The no-overlap property of a pair of rows: whenever both are confirmed
and share hall and date, their buffer-adjusted intervals are disjoint. -/
def compat (b1 b2 : Booking) : Prop :=
  b1.status = .confirmed → b2.status = .confirmed →
    b1.hall_id = b2.hall_id → b1.date = b2.date →
      b1.end_min + 15 ≤ b2.start_min ∨ b2.end_min + 15 ≤ b1.start_min

/-- The core invariant: every pair of distinct rows of the table is
compatible. -/
def NoOverlap (st : Ledger) : Prop := st.Pairwise compat

/-- Concrete sample payloads used by witnesses and counterexamples below:
hall A on Monday 2024-06-03 at 15:00. -/
def payloadMonday : Payload :=
  ⟨some "A".data, some "2024-06-03".data, some "15:00–16:00".data,
   none, some "79990000000".data, []⟩

/-- A payload whose slot text is not a clock time. -/
def payloadBadSlot : Payload := { payloadMonday with slot := some "noon".data }

/-- A payload whose slot parses (23:00, outside the working grid) but whose
date is not a calendar date. -/
def payloadBadDate : Payload :=
  { payloadMonday with slot := some "23:00–24:00".data, date := some "junk".data }

/-- A payload on the grid boundary case of claim C10: a slot start that is
neither inside the working window nor needed to be, 23:00. -/
def payloadLate : Payload := { payloadMonday with slot := some "23:00–24:00".data }

/-- The row payloadMonday books: the hall A slot 15:00 to 16:00 on Monday
2024-06-03 (base price, no weekend or prime-time factor, no add-ons). -/
def rowMonday : Booking :=
  ⟨"BK-2024-06-03-A-1500".data, "A".data, "2024-06-03".data, 900, 960,
   none, "79990000000".data, [], 10000, .confirmed⟩

/-! ## Helper lemmas -/

lemma pyRound_wk : pyRound ((10000 : ℚ) * (11/10 : ℚ)) = 11000 := by
  norm_num [pyRound]

lemma pyRound_prime : pyRound (((11000 : ℤ) : ℚ) * (13/10 : ℚ)) = 14300 := by
  norm_num [pyRound]

/-- A successful /book call appends one confirmed row that passed the
conflict query against the previous table. -/
lemma book_ok_elim {st : Ledger} {p : Payload} {r : BookResp} {st' : Ledger}
    (h : book st p = .ok (r, st')) :
    ∃ b : Booking, st' = st ++ [b] ∧ b.status = .confirmed
      ∧ conflictExists st b.hall_id b.date b.start_min b.end_min = false := by
  unfold book at h
  split at h
  · exact absurd h (by simp)
  · dsimp only at h
    split at h
    · exact absurd h (by simp)
    · split at h
      · exact absurd h (by simp)
      · split at h
        · exact absurd h (by simp)
        · split at h
          · exact absurd h (by simp)
          · split at h
            · exact absurd h (by simp)
            · injection h with h
              injection h with h1 h2
              subst h2
              exact ⟨_, rfl, rfl, by simp_all⟩

/-- A successful /cancel call rewrites the statuses of the rows with the
requested id and changes nothing else. -/
lemma cancel_ok_elim {st : Ledger} {bid : Option Str} {st' : Ledger}
    (h : cancel st bid = .ok st') :
    st' = st.map (cancelRow (bid.getD [])) := by
  unfold cancel at h
  split at h
  · exact absurd h (by simp)
  · injection h with h
    exact h.symm

/-- Rewriting a status to canceled can only weaken the premises of compat. -/
lemma compat_cancelRow (bid : Str) {a b : Booking} (hab : compat a b) :
    compat (cancelRow bid a) (cancelRow bid b) := by
  unfold compat cancelRow at *
  by_cases ha : a.booking_id = bid
  · by_cases hb : b.booking_id = bid
    · simp [ha, hb]
    · simp [ha, hb]
  · by_cases hb : b.booking_id = bid
    · simp [ha, hb]
    · simpa [ha, hb] using hab

/-- The availability loop, characterised: it filters the fixed candidate
grid by the buffer conflict test and formats the survivors. -/
lemma slotsLoop_eq (busy : List (Int × Int)) :
    ∀ (n start : Nat), start + SLOT_DUR * n = WORK_END →
      slotsLoop busy start
        = ((List.range' start n SLOT_DUR).filter (fun s => !hasConflict s busy)).map
            (fun s => min_to_range (s : Int) (SLOT_DUR : Int)) := by
  intro n
  induction n with
  | zero =>
    intro start h
    rw [slotsLoop]
    simp only [SLOT_DUR, WORK_END] at h ⊢
    rw [if_neg (by omega)]
    simp
  | succ n ih =>
    intro start h
    have hle : start + SLOT_DUR ≤ WORK_END := by
      simp only [SLOT_DUR, WORK_END] at *
      omega
    rw [slotsLoop, if_pos hle, List.range'_succ, List.filter_cons,
      ih (start + SLOT_DUR) (by simp only [SLOT_DUR, WORK_END] at *; omega)]
    cases hc : hasConflict start busy <;> simp

/-! ## Claim C1: the no-overlap invariant holds in every reachable state -/

/-- C1: for every ledger state reachable by any sequence of /book and
/cancel operations, no two confirmed rows of the same hall and date have
overlapping buffer-adjusted intervals: one row ends, buffer included, at or
before the other starts. -/
theorem reachable_no_overlap (st : Ledger) (h : Reachable st) : NoOverlap st := by
  induction h with
  | init => exact List.Pairwise.nil
  | bookStep st p r st' _ hb ih =>
    obtain ⟨b, rfl, hstatus, hconf⟩ := book_ok_elim hb
    rw [NoOverlap, List.pairwise_append]
    refine ⟨ih, List.pairwise_singleton _ _, ?_⟩
    intro a ha c hc
    simp only [List.mem_singleton] at hc
    subst hc
    intro hsa hsb hhall hdate
    simp only [conflictExists, List.any_eq_false] at hconf
    have hx := hconf a ha
    simp [hsa, hhall, hdate, BUFFER] at hx
    omega
  | cancelStep st bid st' _ hc ih =>
    obtain rfl := cancel_ok_elim hc
    exact ih.map _ (fun a b hab => compat_cancelRow _ hab)

/-- C1 witness: the invariant, evaluated on the concrete reachable state
produced by one successful booking. -/
theorem reachable_no_overlap_witness :
    NoOverlap [rowMonday] :=
  reachable_no_overlap _
    (Reachable.bookStep [] payloadMonday ⟨"BK-2024-06-03-A-1500".data, 10000⟩ _
      Reachable.init (by rfl))

/-! ## Claim C4: the availability computation, characterised -/

/-- C4: for every list of busy intervals, the slot strings produced by the
availability loop are exactly the formatted conflict-free candidates of the
fixed grid (starts 540, 600, ..., 1200), kept in ascending order of start,
where a candidate conflicts with a busy interval (s, e) unless it ends plus
buffer at or before s or starts at or after e plus buffer. -/
theorem slots_sound_complete_ordered (busy : List (Int × Int)) :
    slotsLoop busy WORK_START
      = ((List.range' WORK_START 12 SLOT_DUR).filter (fun s => !hasConflict s busy)).map
          (fun s => min_to_range (s : Int) (SLOT_DUR : Int))
    ∧ ((List.range' WORK_START 12 SLOT_DUR).filter (fun s => !hasConflict s busy)).Pairwise (· < ·) :=
  ⟨slotsLoop_eq busy 12 WORK_START (by decide),
   (List.pairwise_lt_range' WORK_START 12 SLOT_DUR (by decide)).filter _⟩

/-! ## Claim C2: weekend then prime-time pricing -/

/-- C2: for a hall with base price 10000 and weekend coefficient 1.10, on
any Saturday, at start offset 1080 (18:00) with no add-ons, the price is
exactly 14300: the weekend coefficient is applied and rounded first, and
the 1.3 prime-time factor is applied to the already weekend-adjusted price
and rounded. -/
theorem calc_price_weekend_prime (hall : Hall) (date : Str)
    (hbase : hall.base_price = 10000) (hcoef : hall.weekend_coef = 11/10)
    (hSat : ∃ y m d, dateParse date = some (y, m, d) ∧ isoWeekday y m d = 6) :
    calc_price hall date 1080 [] = some 14300 := by
  obtain ⟨y, m, d, hd, hw⟩ := hSat
  have hwk : is_weekend date = some true := by simp [is_weekend, hd, hw]
  have hf : (1080 : Int).fdiv 60 = 18 := by decide
  simp only [calc_price, hwk, hf, hbase, hcoef]
  norm_num [pyRound]

/-- C2 witness: hall A on Saturday 2024-06-01 at 18:00. -/
theorem calc_price_weekend_prime_witness :
    dateParse "2024-06-01".data = some (2024, 6, 1) ∧ isoWeekday 2024 6 1 = 6
      ∧ calc_price ⟨"A".data, "Daylight".data, 10000, 11/10⟩ "2024-06-01".data 1080 [] = some 14300 :=
  ⟨by decide, by decide,
   calc_price_weekend_prime _ _ rfl rfl ⟨2024, 6, 1, by decide, by decide⟩⟩

/-! ## Claim C3: the slot grid round-trips through formatting and parsing -/

set_option maxRecDepth 4000 in
set_option maxHeartbeats 4000000 in
/-- C3: for every minute offset of the daily grid (0 ≤ m and m + 60 ≤ 1440),
parsing the formatted range recovers the offset. -/
theorem parse_slot_roundtrip (m : Int) (h0 : 0 ≤ m) (h1 : m + 60 ≤ 1440) :
    parse_slot (min_to_range m 60) = some m := by
  have key : ∀ a : Nat, a < 20 → ∀ b : Nat, b < 70 →
      parse_slot (min_to_range ((70 * a + b : Nat) : Int) 60) = some ((70 * a + b : Nat) : Int) := by
    decide
  obtain ⟨n, rfl⟩ := Int.eq_ofNat_of_zero_le h0
  have hk := key (n / 70) (by omega) (n % 70) (by omega)
  rwa [Nat.div_add_mod n 70] at hk

/-- C3 witness: the 09:00 slot. -/
theorem parse_slot_roundtrip_witness :
    (0 : Int) ≤ 540 ∧ (540 : Int) + 60 ≤ 1440
    ∧ parse_slot (min_to_range 540 60) = some 540 :=
  ⟨by decide, by decide, parse_slot_roundtrip 540 (by decide) (by decide)⟩

/-! ## Claim C5: booking-id collision on re-booking -/

/-- C5 counterexample: booking hall A Monday 15:00, canceling it, and
booking the identical hall, date and hour again does not succeed and does
not replace the prior row: the second insert hits the duplicate primary key
and raises IntegrityError (an unhandled exception, answered as a 500). -/
theorem rebook_after_cancel_counterexample :
    ((book [] payloadMonday).bind fun r =>
      (cancel r.2 (some r.1.booking_id)).bind fun st2 => book st2 payloadMonday)
      = .error .integrityError := by rfl

/-- C5 as amended: whenever a /book call passes every earlier check but the
generated booking id is already present in the table (as happens when
re-booking the same hall, date and hour after a cancellation), the call
fails with IntegrityError and the table keeps its prior rows. -/
theorem book_id_collision_errors
    (st : Ledger) (p : Payload) (start price : Int) (hall : Hall)
    (hfields : (truthy p.hall_id && truthy p.date && truthy p.slot && truthy p.phone) = true)
    (hparse : parse_slot (p.slot.getD []) = some start)
    (hconf : conflictExists st (p.hall_id.getD []) (p.date.getD []) start (start + (SLOT_DUR : Int)) = false)
    (hhall : findHall (p.hall_id.getD []) = some hall)
    (hprice : calc_price hall (p.date.getD []) start (p.addons.map (fun n => (n, addonPrice n))) = some price)
    (hdup : st.any (fun b => decide (b.booking_id = genBookingId (p.date.getD []) (p.hall_id.getD []) start)) = true) :
    book st p = .error .integrityError := by
  simp only [book, hfields, hparse, hconf, hhall, hprice, hdup, Bool.not_true]
  simp

/-- C5 amended witness: re-booking over the canceled Monday row. -/
theorem book_id_collision_errors_witness :
    book [{ rowMonday with status := .canceled }] payloadMonday = .error .integrityError :=
  book_id_collision_errors [{ rowMonday with status := .canceled }] payloadMonday 900 10000
    ⟨"A".data, "Daylight".data, 10000, 11/10⟩
    (by decide) (by decide) (by decide) (by rfl) (by rfl) (by decide)

/-! ## Claim C7: malformed clock times -/

/-- C7 counterexample: the slot text noon parses into no clock time, and the
/book call carrying it ends in ValueError, the unhandled-exception outcome
that FastAPI answers with a 500 server error, not with a validation (400)
client error. -/
theorem book_bad_slot_counterexample :
    parse_slot (payloadBadSlot.slot.getD []) = none
    ∧ book [] payloadBadSlot = .error .valueError := ⟨by decide, by rfl⟩

/-- C7 as amended: a malformed slot string makes time_to_min (and hence
parse_slot) fail, and a /book request carrying one fails with the leaked
ValueError, a server error, rather than a validation error. -/
theorem book_slot_value_error (st : Ledger) (p : Payload)
    (hfields : (truthy p.hall_id && truthy p.date && truthy p.slot && truthy p.phone) = true)
    (hparse : parse_slot (p.slot.getD []) = none) :
    book st p = .error .valueError := by
  simp only [book, hfields, hparse, Bool.not_true]
  simp

/-- C7 amended witness. -/
theorem book_slot_value_error_witness :
    book [] payloadBadSlot = .error .valueError :=
  book_slot_value_error [] payloadBadSlot (by decide) (by decide)

/-! ## Claim C9: the booking identifier -/

/-- C9: the booking id depends only on date, hall id and start hour, and
for hall A, date 2024-06-01, 15:00 it is BK-2024-06-01-A-1500. -/
theorem genid_deterministic (date hall_id : Str) (s1 s2 : Int)
    (h : s1.fdiv 60 = s2.fdiv 60) :
    genBookingId date hall_id s1 = genBookingId date hall_id s2
    ∧ genBookingId "2024-06-01".data "A".data 900 = "BK-2024-06-01-A-1500".data :=
  ⟨by simp [genBookingId, h], by decide⟩

/-- C9 witness: 15:00 and 15:30 share a start hour and hence an id. -/
theorem genid_deterministic_witness :
    (900 : Int).fdiv 60 = (930 : Int).fdiv 60
    ∧ (genBookingId "2024-06-01".data "A".data 900 = genBookingId "2024-06-01".data "A".data 930
       ∧ genBookingId "2024-06-01".data "A".data 900 = "BK-2024-06-01-A-1500".data) :=
  ⟨by decide, genid_deterministic "2024-06-01".data "A".data 900 930 (by decide)⟩

/-! ## Claim C10: no grid or working-hours validation of the slot start -/

/-- C10 counterexample: a payload whose required fields are all present,
whose hall exists, whose slot start parses (23:00), and which conflicts
with nothing, is still not accepted, because its date text junk makes the
price computation raise: the original claim omits that the date must be a
well-formed calendar date. -/
theorem book_bad_date_counterexample :
    parse_slot (payloadBadDate.slot.getD []) = some 1380
    ∧ findHall (payloadBadDate.hall_id.getD []) = some ⟨"A".data, "Daylight".data, 10000, 11/10⟩
    ∧ conflictExists [] (payloadBadDate.hall_id.getD []) (payloadBadDate.date.getD []) 1380 (1380 + (SLOT_DUR : Int)) = false
    ∧ book [] payloadBadDate = .error .valueError :=
  ⟨by decide, by rfl, by decide, by rfl⟩

/-- C10 as amended: /book validates the parsed slot start against neither
the hourly grid nor the working hours: whatever offset the slot text parses
to, the booking is accepted and persisted with end = start + 60, provided
the required fields are present, the hall exists, no confirmed booking
conflicts under the buffer rule, the date is a well-formed calendar date
(so pricing succeeds), and the generated id is not already stored. -/
theorem book_accepts_any_parsed_start
    (st : Ledger) (p : Payload) (start price : Int) (hall : Hall)
    (hfields : (truthy p.hall_id && truthy p.date && truthy p.slot && truthy p.phone) = true)
    (hparse : parse_slot (p.slot.getD []) = some start)
    (hconf : conflictExists st (p.hall_id.getD []) (p.date.getD []) start (start + (SLOT_DUR : Int)) = false)
    (hhall : findHall (p.hall_id.getD []) = some hall)
    (hprice : calc_price hall (p.date.getD []) start (p.addons.map (fun n => (n, addonPrice n))) = some price)
    (hdup : st.any (fun b => decide (b.booking_id = genBookingId (p.date.getD []) (p.hall_id.getD []) start)) = false) :
    book st p
      = .ok (⟨genBookingId (p.date.getD []) (p.hall_id.getD []) start, price⟩,
          st ++ [⟨genBookingId (p.date.getD []) (p.hall_id.getD []) start,
                  p.hall_id.getD [], p.date.getD [], start, start + (SLOT_DUR : Int),
                  p.name, p.phone.getD [], p.addons.map (fun n => (n, addonPrice n)),
                  price, .confirmed⟩]) := by
  simp only [book, hfields, hparse, hconf, hhall, hprice, hdup, Bool.not_true]
  simp

/-- C10 witness: a slot starting at 23:00, outside the 09:00 to 21:00 grid,
is accepted and stored with end 1440. -/
theorem book_accepts_any_parsed_start_witness :
    book [] payloadLate
      = .ok (⟨genBookingId ("2024-06-03".data) ("A".data) 1380, 10000⟩,
          [] ++ [⟨genBookingId ("2024-06-03".data) ("A".data) 1380,
                  "A".data, "2024-06-03".data, 1380, 1380 + (SLOT_DUR : Int),
                  none, "79990000000".data, [], 10000, .confirmed⟩]) :=
  book_accepts_any_parsed_start [] payloadLate 1380 10000
    ⟨"A".data, "Daylight".data, 10000, 11/10⟩
    (by decide) (by decide) (by decide) (by rfl) (by rfl) (by decide)

/-! ## Claim C6: cancellation is lenient and precise -/

/-- Canceling removes exactly the rows with the canceled id from the busy
intervals every overlap check consumes. -/
lemma busyOf_cancel (bid hall date : Str) (st : Ledger) :
    busyOf (st.map (cancelRow bid)) hall date
      = busyOf (st.filter (fun b => !decide (b.booking_id = bid))) hall date := by
  induction st with
  | nil => rfl
  | cons a t ih =>
    simp only [busyOf] at ih ⊢
    by_cases hb : a.booking_id = bid
    · simp [cancelRow, hb, List.filter_cons, ih]
    · simp only [List.map_cons, cancelRow, hb, if_false, List.filter_cons]
      by_cases hp : (decide (a.hall_id = hall) && decide (a.date = date)
          && decide (a.status = Status.confirmed)) = true
      · simp [hp, ih]
      · simp [hp, ih]

/-- C6: for every (non-empty) booking id, existing in the table or not,
/cancel succeeds; rows holding the id end up canceled, every other row is
kept unchanged, and the canceled intervals no longer count in the busy set
that the overlap checks consume. -/
theorem cancel_lenient (st : Ledger) (bid : Str) (hne : bid ≠ []) :
    cancel st (some bid) = .ok (st.map (cancelRow bid))
    ∧ (∀ b ∈ st.map (cancelRow bid), b.booking_id = bid → b.status = .canceled)
    ∧ (∀ b ∈ st, b.booking_id ≠ bid → b ∈ st.map (cancelRow bid))
    ∧ ∀ hall date, busyOf (st.map (cancelRow bid)) hall date
        = busyOf (st.filter (fun b => !decide (b.booking_id = bid))) hall date := by
  refine ⟨?_, ?_, ?_, fun hall date => busyOf_cancel bid hall date st⟩
  · simp [cancel, truthy, hne]
  · intro b hb hid
    obtain ⟨a, ha, rfl⟩ := List.mem_map.1 hb
    by_cases h : a.booking_id = bid
    · simp [cancelRow, h]
    · simp only [cancelRow, if_neg h] at hid
      exact absurd hid h
  · intro b hb hne2
    exact List.mem_map.2 ⟨b, hb, by simp [cancelRow, hne2]⟩

/-- C6 witness: canceling the Monday booking succeeds. -/
theorem cancel_lenient_witness :
    cancel [rowMonday] (some "BK-2024-06-03-A-1500".data)
      = .ok ([rowMonday].map (cancelRow "BK-2024-06-03-A-1500".data)) :=
  (cancel_lenient [rowMonday] "BK-2024-06-03-A-1500".data (by decide)).1

/-! ## Claim C8: listing bookings by phone -/

lemma strLt_trans : ∀ (a b c : Str), strLt a b = true → strLt b c = true → strLt a c = true := by
  intro a
  induction a with
  | nil =>
    intro b c hab hbc
    cases b with
    | nil => simp [strLt] at hab
    | cons y ys =>
      cases c with
      | nil => simp [strLt] at hbc
      | cons z zs => simp [strLt]
  | cons x xs ih =>
    intro b c hab hbc
    cases b with
    | nil => simp [strLt] at hab
    | cons y ys =>
      cases c with
      | nil => simp [strLt] at hbc
      | cons z zs =>
        simp only [strLt] at hab hbc ⊢
        by_cases h1 : x < y
        · by_cases h2 : y < z
          · rw [if_pos (h1.trans h2)]
          · by_cases h3 : z < y
            · rw [if_neg h2, if_pos h3] at hbc
              exact absurd hbc (by simp)
            · have hyz : y = z := le_antisymm (not_lt.1 h3) (not_lt.1 h2)
              subst hyz
              rw [if_pos h1]
        · by_cases h1' : y < x
          · rw [if_neg h1, if_pos h1'] at hab
            exact absurd hab (by simp)
          · have hxy : x = y := le_antisymm (not_lt.1 h1') (not_lt.1 h1)
            subst hxy
            rw [if_neg h1, if_neg h1'] at hab
            by_cases h2 : x < z
            · rw [if_pos h2]
            · by_cases h3 : z < x
              · rw [if_neg h2, if_pos h3] at hbc
                exact absurd hbc (by simp)
              · have hxz : x = z := le_antisymm (not_lt.1 h3) (not_lt.1 h2)
                subst hxz
                rw [if_neg h2, if_neg h3] at hbc
                rw [if_neg h2, if_neg h3]
                exact ih ys zs hab hbc

lemma strLt_or_eq : ∀ (a b : Str), strLt a b = true ∨ a = b ∨ strLt b a = true := by
  intro a
  induction a with
  | nil =>
    intro b
    cases b with
    | nil => right; left; rfl
    | cons y ys => left; simp [strLt]
  | cons x xs ih =>
    intro b
    cases b with
    | nil => right; right; simp [strLt]
    | cons y ys =>
      rcases lt_trichotomy x y with h | h | h
      · left; simp [strLt, h]
      · subst h
        rcases ih ys with h' | h' | h'
        · left; simp [strLt, lt_irrefl, h']
        · subst h'; right; left; rfl
        · right; right; simp [strLt, lt_irrefl, h']
      · right; right; simp [strLt, h]

lemma rowLe_trans : ∀ (a b c : Booking), rowLe a b → rowLe b c → rowLe a c := by
  intro a b c hab hbc
  simp only [rowLe, Bool.or_eq_true, Bool.and_eq_true, decide_eq_true_eq] at *
  rcases hab with h1 | ⟨h1, h1'⟩ <;> rcases hbc with h2 | ⟨h2, h2'⟩
  · exact Or.inl (strLt_trans _ _ _ h1 h2)
  · exact Or.inl (h2 ▸ h1)
  · exact Or.inl (h1 ▸ h2)
  · exact Or.inr ⟨h1.trans h2, h1'.trans h2'⟩

lemma rowLe_total : ∀ (a b : Booking), rowLe a b || rowLe b a := by
  intro a b
  simp only [rowLe, Bool.or_eq_true, Bool.and_eq_true, decide_eq_true_eq, Bool.or_assoc]
  rcases strLt_or_eq a.date b.date with h | h | h
  · exact Or.inl h
  · rcases Int.le_total a.start_min b.start_min with h' | h'
    · exact Or.inr (Or.inl ⟨h, h'⟩)
    · exact Or.inr (Or.inr (Or.inr ⟨h.symm, h'⟩))
  · exact Or.inr (Or.inr (Or.inl h))

/-- C8: the /bookings query returns exactly the confirmed rows of the phone
(a permutation of the filtered table, so no canceled entry appears), in
byte order of date and then ascending start time. -/
theorem bookings_for_phone_spec (st : Ledger) (phone : Str) :
    List.Perm (bookingsQuery st phone)
        (st.filter (fun b => decide (b.phone = phone) && decide (b.status = .confirmed)))
    ∧ (∀ b ∈ bookingsQuery st phone, b.phone = phone ∧ b.status = .confirmed)
    ∧ (bookingsQuery st phone).Pairwise
        (fun b1 b2 => strLt b1.date b2.date = true
          ∨ (b1.date = b2.date ∧ b1.start_min ≤ b2.start_min)) := by
  refine ⟨List.mergeSort_perm _ _, ?_, ?_⟩
  · intro b hb
    rw [bookingsQuery, List.mem_mergeSort, List.mem_filter] at hb
    simpa using hb.2
  · exact (List.sorted_mergeSort rowLe_trans rowLe_total _).imp
      (fun h => by simpa [rowLe, decide_eq_true_eq] using h)

end StudioLumi
